import Mathlib

/-!
Verification of the Watcharr recurring-task scheduler (`server/tasks.go`).

The scheduler owns a registry of named task functions (`taskFuncs`) and a
gocron execution engine (`taskScheduler`).  The gocron library itself is not
part of this repository, so its behaviour is modelled from the spec: jobs carry
an opaque engine-assigned id, registration may fail, `Update` retires the old
job and creates a replacement with a fresh id, and querying a job's next-run
time may fail.

Durations follow Go `time.Duration`: a signed 64-bit count of nanoseconds.
Products such as `time.Duration(req.Seconds) * time.Second` are computed in
wrapping int64 arithmetic, modelled by `wrap64`.
-/

/-- Go `time.Second` as a `time.Duration` (nanoseconds). -/
def second : Int := 1000000000

/-- Go `time.Hour` as a `time.Duration` (nanoseconds). -/
def hour : Int := 3600 * second

/-- Go signed 64-bit wraparound: the two's-complement value of an int64
arithmetic result.  `time.Duration` products overflow by wrapping. -/
def wrap64 (x : Int) : Int :=
  (x + 2 ^ 63) % 2 ^ 64 - 2 ^ 63

/-- The task work functions defined in `setupTasks`.  Each Go closure simply
calls the corresponding routine (`cleanupTokens(db)`, `refreshArrQueues()`,
`cleanupImages(db)`), so we represent them symbolically. -/
inductive TaskFunc where
  | cleanupTokensJob : TaskFunc
  | refreshArrQueuesJob : TaskFunc
  | cleanupImagesJob : TaskFunc
deriving DecidableEq, Repr

/-- Modelled from the spec: a live gocron job.  `id` is the opaque
engine-assigned identity, `name` the display name (`gocron.WithName`),
`interval` the duration between runs (`gocron.DurationJob`), `fn` the task
function passed via `gocron.NewTask` (`none` models a nil Go func), and
`nextRun` the engine's next-run timestamp, `none` when querying it fails. -/
structure Job where
  id : Nat
  name : String
  interval : Int
  fn : Option TaskFunc
  nextRun : Option Int
deriving DecidableEq, Repr

/-- Modelled from the spec: the gocron execution engine.  It owns the set of
active jobs, a counter supplying fresh job ids, and a flag recording whether
the background execution loop was started. -/
structure Engine where
  jobs : List Job
  nextId : Nat
  started : Bool
deriving DecidableEq, Repr

/-- A freshly constructed engine (`gocron.NewScheduler()`): no jobs, loop not
yet started. -/
def Engine.empty : Engine :=
  { jobs := [], nextId := 0, started := false }

/-- Modelled from the spec: `taskScheduler.NewJob`.  Registration may be
rejected by the engine (`fail`); on success the job is appended with a fresh
id and its first run is scheduled one interval after registration. -/
def Engine.newJob (e : Engine) (fail : Bool) (interval : Int)
    (fn : Option TaskFunc) (name : String) : Except String Engine :=
  if fail then Except.error "registration failed"
  else Except.ok
    { e with
      jobs := e.jobs ++ [{ id := e.nextId, name := name, interval := interval,
                           fn := fn, nextRun := some interval }],
      nextId := e.nextId + 1 }

/-- Modelled from the spec: `taskScheduler.Update`.  Fails if no active job
carries `id`; otherwise the engine may still reject the replacement (`fail`);
on success the old job is retired and a replacement with a fresh id, the given
name, interval and task function is registered. -/
def Engine.update (e : Engine) (fail : Bool) (id : Nat) (interval : Int)
    (fn : Option TaskFunc) (name : String) : Except String Engine :=
  if e.jobs.any (fun j => j.id == id) then
    if fail then Except.error "update rejected"
    else Except.ok
      { e with
        jobs := (e.jobs.filter (fun j => j.id != id)) ++
          [{ id := e.nextId, name := name, interval := interval,
             fn := fn, nextRun := some interval }],
        nextId := e.nextId + 1 }
  else Except.error "job not found"

/-- Modelled from the spec: `taskScheduler.Start()`. -/
def Engine.start (e : Engine) : Engine :=
  { e with started := true }

/-- `type TaskRescheduleRequest struct { Seconds int }`. -/
structure TaskRescheduleRequest where
  seconds : Int
deriving DecidableEq, Repr

/-- `type AllTasksResponse struct { Name string; NextRun time.Time }`.
The zero `time.Time` value is modelled as `0`. -/
structure AllTasksResponse where
  name : String
  nextRun : Int
deriving DecidableEq, Repr

/-- Go map lookup `m[name]` on the task-function table; an absent key yields
the zero value (a nil func), modelled as `none`. -/
def lookupFunc (m : List (String × TaskFunc)) (name : String) : Option TaskFunc :=
  (m.find? (fun p => p.1 == name)).map Prod.snd

/-- The combined process-wide state of `tasks.go`: the global `taskScheduler`
engine and the global `taskFuncs` table. -/
structure SchedulerState where
  engine : Engine
  taskFuncs : List (String × TaskFunc)
deriving DecidableEq, Repr

/-- The `taskFuncs` table built in `setupTasks`. -/
def taskFuncsInit : List (String × TaskFunc) :=
  [("Cleanup Tokens", TaskFunc.cleanupTokensJob),
   ("Refresh Arr Queues", TaskFunc.refreshArrQueuesJob),
   ("Cleanup Images", TaskFunc.cleanupImagesJob)]

/-- The three task names registered by `setupTasks`, in registration order. -/
def taskNames : List String :=
  ["Cleanup Tokens", "Refresh Arr Queues", "Cleanup Images"]

/-- `addTaskToScheduler`: resolve the effective interval from
`Config.TASK_SCHEDULE` (a Go map from name to seconds; absent keys yield `0`),
falling back to `defaultDur`, then register the job.  `cfg` stands for
`Config.TASK_SCHEDULE`, `fail` for whether the engine rejects this
registration. -/
def addTaskToScheduler (cfg : String → Int) (funcs : List (String × TaskFunc))
    (fail : Bool) (e : Engine) (name : String) (defaultDur : Int) :
    Except String Engine :=
  let s := if cfg name ≠ 0 then wrap64 (cfg name * second) else defaultDur
  e.newJob fail s (lookupFunc funcs name) name

/-- One `addTaskToScheduler` call inside `setupTasks`: on error the failure is
logged (`slog.Error`) and the engine is left as it was; setup continues. -/
def setupAdd (cfg : String → Int) (failSet : String → Bool)
    (funcs : List (String × TaskFunc)) (acc : List String × Engine)
    (name : String) (defaultDur : Int) : List String × Engine :=
  match addTaskToScheduler cfg funcs (failSet name) acc.2 name defaultDur with
  | Except.ok e => (acc.1, e)
  | Except.error _ =>
      (acc.1 ++ ["SetupTasks: Failed to add new job: " ++ name], acc.2)

/-- `setupTasks`: construct the engine (construction may fail,
`newSchedulerFails`), build `taskFuncs`, register the three jobs with their
default durations (60s, 60s, 24h) — individual registration failures are
logged and skipped — then start the engine.  The first component collects the
`slog.Error` messages; the second is the resulting global state, `none` when
engine construction failed and `setupTasks` returned early. -/
def setupTasks (cfg : String → Int) (newSchedulerFails : Bool)
    (failSet : String → Bool) : List String × Option SchedulerState :=
  if newSchedulerFails then
    (["SetupTasks: Failed to create new scheduler!"], none)
  else
    let funcs := taskFuncsInit
    let a1 := setupAdd cfg failSet funcs ([], Engine.empty) "Cleanup Tokens" (60 * second)
    let a2 := setupAdd cfg failSet funcs a1 "Refresh Arr Queues" (60 * second)
    let a3 := setupAdd cfg failSet funcs a2 "Cleanup Images" (24 * hour)
    (a3.1, some { engine := a3.2.start, taskFuncs := funcs })

/-- `getAllTasks`: one response entry per active job, carrying the job's name;
when `j.NextRun()` fails the entry keeps the zero `time.Time` value. -/
def getAllTasks (e : Engine) : List AllTasksResponse :=
  e.jobs.map fun j =>
    { name := j.name,
      nextRun := match j.nextRun with
                 | none => 0
                 | some t => t }

/-- `getTask`: linear scan over `taskScheduler.Jobs()`, returning the first
job whose name matches, or `none` (a nil pointer in Go). -/
def getTask (e : Engine) (name : String) : Option Job :=
  e.jobs.find? (fun j => j.name == name)

/-- `rescheduleTask`: look the job up by name; if absent return the
`"no task found"` error; otherwise submit a replacement registration via
`taskScheduler.Update` with duration `time.Duration(req.Seconds) *
time.Second` — a wrapping int64 product — the stored
`taskFuncs[name]` function and the same name.  `updateFails` models the engine
rejecting the replacement.  Returns the error outcome together with the
resulting global state. -/
def rescheduleTask (updateFails : Bool) (st : SchedulerState) (name : String)
    (req : TaskRescheduleRequest) : Except String Unit × SchedulerState :=
  match getTask st.engine name with
  | none => (Except.error "no task found", st)
  | some j =>
    match st.engine.update updateFails j.id (wrap64 (req.seconds * second))
        (lookupFunc st.taskFuncs name) name with
    | Except.error _ => (Except.error "failed to update job", st)
    | Except.ok e => (Except.ok (), { st with engine := e })

/-- A sequence of `rescheduleTask` calls, each with its own engine-rejection
flag, name and requested seconds; the state threads through, errors are
discarded by the caller. -/
def runReschedules (st : SchedulerState) (ops : List (Bool × String × Int)) :
    SchedulerState :=
  ops.foldl (fun s op => (rescheduleTask op.1 s op.2.1 { seconds := op.2.2 }).2) st

/-! ### Helper lemmas -/

theorem find?_first_split {α : Type} (p : α → Bool) (l : List α) (x : α)
    (h : l.find? p = some x) :
    p x = true ∧ ∃ l₁ l₂, l = l₁ ++ x :: l₂ ∧ ∀ y ∈ l₁, p y = false := by
  induction l with
  | nil => simp at h
  | cons a t ih =>
    by_cases hp : p a
    · rw [List.find?_cons_of_pos _ hp] at h
      cases h
      exact ⟨hp, [], t, rfl, by simp⟩
    · rw [List.find?_cons_of_neg _ (by simpa using hp)] at h
      obtain ⟨hpx, l₁, l₂, rfl, hl₁⟩ := ih h
      refine ⟨hpx, a :: l₁, l₂, rfl, ?_⟩
      intro y hy
      rcases List.mem_cons.mp hy with rfl | hy
      · simpa using hp
      · exact hl₁ y hy

theorem getAllTasks_names (e : Engine) :
    (getAllTasks e).map AllTasksResponse.name = e.jobs.map Job.name := by
  simp [getAllTasks]

theorem getTask_mem {e : Engine} {name : String} {j : Job}
    (h : getTask e name = some j) : j ∈ e.jobs ∧ j.name = name := by
  refine ⟨List.mem_of_find?_eq_some h, ?_⟩
  have := List.find?_some h
  simpa using this

/-- The engine invariant maintained by the scheduler: display names are
unique, ids are unique, and every id is below the fresh-id counter. -/
def Engine.Inv (e : Engine) : Prop :=
  (e.jobs.map Job.name).Nodup ∧ (e.jobs.map Job.id).Nodup ∧
  ∀ j ∈ e.jobs, j.id < e.nextId

theorem Engine.start_inv {e : Engine} (h : e.Inv) : e.start.Inv := h

theorem update_ok {e : Engine} {f : Bool} {id : Nat} {i : Int}
    {fn : Option TaskFunc} {name : String} {e' : Engine}
    (h : e.update f id i fn name = Except.ok e') :
    e'.jobs = (e.jobs.filter (fun j => j.id != id)) ++
      [{ id := e.nextId, name := name, interval := i, fn := fn, nextRun := some i }] ∧
    e'.nextId = e.nextId + 1 ∧ e'.started = e.started := by
  unfold Engine.update at h
  by_cases ha : e.jobs.any (fun j => j.id == id) = true
  · rw [if_pos ha] at h
    cases f
    · simp only [Bool.false_eq_true, if_false] at h
      cases h
      exact ⟨rfl, rfl, rfl⟩
    · simp at h
  · rw [if_neg ha] at h
    cases h

theorem update_err {e : Engine} {f : Bool} {id : Nat} {i : Int}
    {fn : Option TaskFunc} {name : String} {j : Job}
    (hjmem : j ∈ e.jobs) (hjid : j.id = id) (hf : f = false) :
    ∃ e', e.update f id i fn name = Except.ok e' := by
  unfold Engine.update
  have ha : e.jobs.any (fun k => k.id == id) = true := by
    rw [List.any_eq_true]
    exact ⟨j, hjmem, by simp [hjid]⟩
  rw [if_pos ha, hf]
  simp

theorem update_inv {e : Engine} {f : Bool} {j : Job} {i : Int}
    {fn : Option TaskFunc} {name : String} {e' : Engine}
    (hinv : e.Inv) (hjmem : j ∈ e.jobs) (hjname : j.name = name)
    (h : e.update f j.id i fn name = Except.ok e') : e'.Inv := by
  obtain ⟨hn, hi, hb⟩ := hinv
  obtain ⟨hjobs, hnext, _⟩ := update_ok h
  refine ⟨?_, ?_, ?_⟩
  · rw [hjobs, List.map_append, List.nodup_append]
    refine ⟨hn.sublist ((List.filter_sublist _).map _), by simp, ?_⟩
    intro a ha
    simp only [List.mem_map] at ha
    obtain ⟨k, hk, rfl⟩ := ha
    rw [List.mem_filter] at hk
    obtain ⟨hkmem, hkid⟩ := hk
    simp only [List.map_cons, List.map_nil, List.mem_singleton]
    intro hkname
    have hkj : k = j := List.inj_on_of_nodup_map hn hkmem hjmem (by rw [hkname, hjname])
    subst hkj
    simp at hkid
  · rw [hjobs, List.map_append, List.nodup_append]
    refine ⟨hi.sublist ((List.filter_sublist _).map _), by simp, ?_⟩
    intro a ha
    simp only [List.mem_map] at ha
    obtain ⟨k, hk, rfl⟩ := ha
    rw [List.mem_filter] at hk
    simp only [List.map_cons, List.map_nil, List.mem_singleton]
    intro hkid
    exact absurd (hkid ▸ hb k hk.1) (lt_irrefl _)
  · intro k hk
    rw [hjobs] at hk
    rw [hnext]
    rcases List.mem_append.mp hk with hk | hk
    · exact Nat.lt_succ_of_lt (hb k (List.mem_filter.mp hk).1)
    · rw [List.mem_singleton] at hk
      rw [hk]
      exact Nat.lt_succ_self _

theorem rescheduleTask_inv (f : Bool) (st : SchedulerState) (name : String)
    (req : TaskRescheduleRequest) (h : st.engine.Inv) :
    (rescheduleTask f st name req).2.engine.Inv := by
  cases hg : getTask st.engine name with
  | none => simpa [rescheduleTask, hg] using h
  | some j =>
    obtain ⟨hjmem, hjname⟩ := getTask_mem hg
    cases hu : st.engine.update f j.id (wrap64 (req.seconds * second))
        (lookupFunc st.taskFuncs name) name with
    | error s => simpa [rescheduleTask, hg, hu] using h
    | ok e' =>
      have he : (rescheduleTask f st name req).2.engine = e' := by
        simp [rescheduleTask, hg, hu]
      rw [he]
      exact update_inv h hjmem hjname hu

theorem runReschedules_inv (ops : List (Bool × String × Int)) (st : SchedulerState)
    (h : st.engine.Inv) : (runReschedules st ops).engine.Inv := by
  induction ops generalizing st with
  | nil => exact h
  | cons op rest ih =>
    have hstep : runReschedules st (op :: rest) =
        runReschedules (rescheduleTask op.1 st op.2.1 { seconds := op.2.2 }).2 rest := rfl
    rw [hstep]
    exact ih _ (rescheduleTask_inv op.1 st op.2.1 { seconds := op.2.2 } h)

theorem setupAdd_engine_cases (cfg : String → Int) (failSet : String → Bool)
    (funcs : List (String × TaskFunc)) (acc : List String × Engine)
    (name : String) (d : Int) :
    (setupAdd cfg failSet funcs acc name d).2 = acc.2 ∨
    ((setupAdd cfg failSet funcs acc name d).2.jobs =
        acc.2.jobs ++ [{ id := acc.2.nextId, name := name,
                         interval := if cfg name ≠ 0 then wrap64 (cfg name * second) else d,
                         fn := lookupFunc funcs name,
                         nextRun := some (if cfg name ≠ 0 then wrap64 (cfg name * second) else d) }] ∧
      (setupAdd cfg failSet funcs acc name d).2.nextId = acc.2.nextId + 1 ∧
      (setupAdd cfg failSet funcs acc name d).2.started = acc.2.started) := by
  by_cases hf : failSet name
  · left
    simp [setupAdd, addTaskToScheduler, Engine.newJob, hf]
  · right
    simp only [Bool.not_eq_true] at hf
    simp [setupAdd, addTaskToScheduler, Engine.newJob, hf]

theorem setupAdd_mono (cfg : String → Int) (failSet : String → Bool)
    (funcs : List (String × TaskFunc)) (acc : List String × Engine)
    (name : String) (d : Int) :
    ∀ j ∈ acc.2.jobs, j ∈ (setupAdd cfg failSet funcs acc name d).2.jobs := by
  intro j hj
  rcases setupAdd_engine_cases cfg failSet funcs acc name d with hc | ⟨hc, _, _⟩
  · rw [hc]; exact hj
  · rw [hc]; exact List.mem_append_left _ hj

theorem setupAdd_names (cfg : String → Int) (failSet : String → Bool)
    (funcs : List (String × TaskFunc)) (acc : List String × Engine)
    (name : String) (d : Int) :
    ∀ j ∈ (setupAdd cfg failSet funcs acc name d).2.jobs,
      j ∈ acc.2.jobs ∨ j.name = name := by
  intro j hj
  rcases setupAdd_engine_cases cfg failSet funcs acc name d with hc | ⟨hc, _, _⟩
  · rw [hc] at hj; exact Or.inl hj
  · rw [hc] at hj
    rcases List.mem_append.mp hj with h | h
    · exact Or.inl h
    · rw [List.mem_singleton] at h
      rw [h]
      exact Or.inr rfl

theorem setupAdd_registers (cfg : String → Int) (failSet : String → Bool)
    (funcs : List (String × TaskFunc)) (acc : List String × Engine)
    (name : String) (d : Int) (hf : failSet name = false) :
    (setupAdd cfg failSet funcs acc name d).2.jobs =
      acc.2.jobs ++ [{ id := acc.2.nextId, name := name,
                       interval := if cfg name ≠ 0 then wrap64 (cfg name * second) else d,
                       fn := lookupFunc funcs name,
                       nextRun := some (if cfg name ≠ 0 then wrap64 (cfg name * second) else d) }] := by
  simp [setupAdd, addTaskToScheduler, Engine.newJob, hf]

theorem setupAdd_started (cfg : String → Int) (failSet : String → Bool)
    (funcs : List (String × TaskFunc)) (acc : List String × Engine)
    (name : String) (d : Int) :
    (setupAdd cfg failSet funcs acc name d).2.started = acc.2.started := by
  rcases setupAdd_engine_cases cfg failSet funcs acc name d with hc | ⟨_, _, hc⟩
  · rw [hc]
  · exact hc

theorem setupAdd_inv (cfg : String → Int) (failSet : String → Bool)
    (funcs : List (String × TaskFunc)) (acc : List String × Engine)
    (name : String) (d : Int) (h : acc.2.Inv)
    (hfresh : ∀ j ∈ acc.2.jobs, j.name ≠ name) :
    (setupAdd cfg failSet funcs acc name d).2.Inv := by
  rcases setupAdd_engine_cases cfg failSet funcs acc name d with hc | ⟨hj, hn2, _⟩
  · rw [hc]; exact h
  · obtain ⟨hn, hi, hb⟩ := h
    refine ⟨?_, ?_, ?_⟩
    · rw [hj, List.map_append, List.nodup_append]
      refine ⟨hn, by simp, ?_⟩
      intro a ha
      simp only [List.mem_map] at ha
      obtain ⟨k, hk, rfl⟩ := ha
      simp only [List.map_cons, List.map_nil, List.mem_singleton]
      exact hfresh k hk
    · rw [hj, List.map_append, List.nodup_append]
      refine ⟨hi, by simp, ?_⟩
      intro a ha
      simp only [List.mem_map] at ha
      obtain ⟨k, hk, rfl⟩ := ha
      simp only [List.map_cons, List.map_nil, List.mem_singleton]
      intro hkid
      exact absurd (hkid ▸ hb k hk) (lt_irrefl _)
    · intro k hk
      rw [hj] at hk
      rw [hn2]
      rcases List.mem_append.mp hk with hk | hk
      · exact Nat.lt_succ_of_lt (hb k hk)
      · rw [List.mem_singleton] at hk
        rw [hk]
        exact Nat.lt_succ_self _

theorem setupTasks_inv (cfg : String → Int) (failSet : String → Bool)
    (st : SchedulerState) (h : (setupTasks cfg false failSet).2 = some st) :
    st.engine.Inv := by
  simp only [setupTasks, Bool.false_eq_true, if_false, Option.some.injEq] at h
  subst h
  refine Engine.start_inv ?_
  refine setupAdd_inv _ _ _ _ _ _ ?_ ?_
  · refine setupAdd_inv _ _ _ _ _ _ ?_ ?_
    · refine setupAdd_inv _ _ _ _ _ _ ?_ ?_
      · exact ⟨List.nodup_nil, List.nodup_nil, fun j hj => absurd hj (List.not_mem_nil j)⟩
      · intro j hj
        exact absurd hj (List.not_mem_nil j)
    · intro j hj
      rcases setupAdd_names cfg failSet taskFuncsInit ([], Engine.empty)
          "Cleanup Tokens" (60 * second) j hj with hm | hm
      · exact absurd hm (List.not_mem_nil j)
      · rw [hm]; decide
  · intro j hj
    rcases setupAdd_names cfg failSet taskFuncsInit _
        "Refresh Arr Queues" (60 * second) j hj with hm | hm
    · rcases setupAdd_names cfg failSet taskFuncsInit ([], Engine.empty)
          "Cleanup Tokens" (60 * second) j hm with hm2 | hm2
      · exact absurd hm2 (List.not_mem_nil j)
      · rw [hm2]; decide
    · rw [hm]; decide

/-! ### Concrete states used by the witnesses -/

/-- The job registered for "Cleanup Tokens" in `sampleState`. -/
def sampleJob : Job :=
  { id := 0, name := "Cleanup Tokens", interval := 60 * second,
    fn := some TaskFunc.cleanupTokensJob, nextRun := some (60 * second) }

/-- A small running state: one active job, the full task-function table. -/
def sampleState : SchedulerState :=
  { engine := { jobs := [sampleJob], nextId := 1, started := true },
    taskFuncs := taskFuncsInit }

/-! ### Claims -/

/-- C1 (amended): when an active job carries `name`, `rescheduleTask` retires
that job — its id no longer appears in the engine — and submits a replacement
that carries the same display name, the same stored work function
`taskFuncs[name]`, and a duration equal to the wrapping-int64 product
`req.seconds * 10^9` nanoseconds — exactly `req.seconds` seconds whenever
that product fits in int64; the existing job is not mutated in place, the
replacement being a distinct job with a fresh id. -/
theorem C1_reschedule_replaces (st : SchedulerState) (name : String)
    (req : TaskRescheduleRequest) (j : Job)
    (hfind : getTask st.engine name = some j) (hinv : st.engine.Inv) :
    (rescheduleTask false st name req).1 = Except.ok () ∧
    (∀ k ∈ (rescheduleTask false st name req).2.engine.jobs, k.id ≠ j.id) ∧
    ∃ k ∈ (rescheduleTask false st name req).2.engine.jobs,
      k.name = name ∧ k.fn = lookupFunc st.taskFuncs name ∧
      k.interval = wrap64 (req.seconds * second) ∧ k.id ≠ j.id := by
  obtain ⟨hjmem, hjname⟩ := getTask_mem hfind
  obtain ⟨hn, hi, hb⟩ := hinv
  obtain ⟨e', he'⟩ := @update_err st.engine false j.id (wrap64 (req.seconds * second))
    (lookupFunc st.taskFuncs name) name j hjmem rfl rfl
  obtain ⟨hjobs, hnext, _⟩ := update_ok he'
  have hres : rescheduleTask false st name req = (Except.ok (), { st with engine := e' }) := by
    simp [rescheduleTask, hfind, he']
  rw [hres]
  have hfresh : st.engine.nextId ≠ j.id := by
    intro hcon
    exact absurd (hcon ▸ hb j hjmem) (lt_irrefl _)
  refine ⟨rfl, ?_, ?_⟩
  · intro k hk
    simp only at hk
    rw [hjobs] at hk
    rcases List.mem_append.mp hk with hk | hk
    · have := (List.mem_filter.mp hk).2
      simpa using this
    · rw [List.mem_singleton] at hk
      rw [hk]
      exact hfresh
  · refine ⟨{ id := st.engine.nextId, name := name, interval := wrap64 (req.seconds * second),
              fn := lookupFunc st.taskFuncs name,
              nextRun := some (wrap64 (req.seconds * second)) }, ?_, rfl, rfl, rfl, hfresh⟩
    simp only
    rw [hjobs]
    exact List.mem_append_right _ (List.mem_singleton.mpr rfl)

theorem C1_witness :
    (rescheduleTask false sampleState "Cleanup Tokens" { seconds := 30 }).1 = Except.ok () ∧
    (∀ k ∈ (rescheduleTask false sampleState "Cleanup Tokens" { seconds := 30 }).2.engine.jobs,
       k.id ≠ sampleJob.id) ∧
    ∃ k ∈ (rescheduleTask false sampleState "Cleanup Tokens" { seconds := 30 }).2.engine.jobs,
      k.name = "Cleanup Tokens" ∧ k.fn = lookupFunc sampleState.taskFuncs "Cleanup Tokens" ∧
      k.interval = (30 : Int) * second ∧ k.id ≠ sampleJob.id :=
  C1_reschedule_replaces sampleState "Cleanup Tokens" { seconds := 30 } sampleJob
    (by decide) ⟨by decide, by decide, by decide⟩

/-- C2: when no active job carries `name`, `rescheduleTask` fails with the
"no task found" error and the job set observed through `getAllTasks` is
exactly the same before and after the call. -/
theorem C2_reschedule_notFound (st : SchedulerState) (f : Bool) (name : String)
    (req : TaskRescheduleRequest) (h : ∀ j ∈ st.engine.jobs, j.name ≠ name) :
    (rescheduleTask f st name req).1 = Except.error "no task found" ∧
    getAllTasks (rescheduleTask f st name req).2.engine = getAllTasks st.engine := by
  have hg : getTask st.engine name = none := by
    rw [getTask, List.find?_eq_none]
    intro j hj
    simpa using h j hj
  constructor <;> simp [rescheduleTask, hg]

theorem C2_witness :
    (rescheduleTask false sampleState "Nonexistent Task" { seconds := 10 }).1 =
      Except.error "no task found" ∧
    getAllTasks (rescheduleTask false sampleState "Nonexistent Task"
      { seconds := 10 }).2.engine = getAllTasks sampleState.engine :=
  C2_reschedule_notFound sampleState false "Nonexistent Task" { seconds := 10 } (by decide)

/-- The state produced by a fully successful `setupTasks` run with no
configured overrides. -/
def setupState : SchedulerState :=
  { engine :=
      { jobs :=
          [{ id := 0, name := "Cleanup Tokens", interval := 60 * second,
             fn := some TaskFunc.cleanupTokensJob, nextRun := some (60 * second) },
           { id := 1, name := "Refresh Arr Queues", interval := 60 * second,
             fn := some TaskFunc.refreshArrQueuesJob, nextRun := some (60 * second) },
           { id := 2, name := "Cleanup Images", interval := 24 * hour,
             fn := some TaskFunc.cleanupImagesJob, nextRun := some (24 * hour) }],
        nextId := 3, started := true },
    taskFuncs := taskFuncsInit }

/-- C3: in every state reachable by a successful setup followed by any
sequence of reschedule calls, no two entries of `getAllTasks` share a name. -/
theorem C3_names_unique (cfg : String → Int) (failSet : String → Bool)
    (st : SchedulerState) (ops : List (Bool × String × Int))
    (h : (setupTasks cfg false failSet).2 = some st) :
    ((getAllTasks (runReschedules st ops).engine).map AllTasksResponse.name).Nodup := by
  rw [getAllTasks_names]
  exact (runReschedules_inv ops st (setupTasks_inv cfg failSet st h)).1

theorem C3_witness :
    ((getAllTasks (runReschedules setupState
        [(false, "Cleanup Tokens", 30)]).engine).map AllTasksResponse.name).Nodup :=
  C3_names_unique (fun _ => 0) (fun _ => false) setupState
    [(false, "Cleanup Tokens", 30)] (by decide)

/-- C6: `getAllTasks` never fails wholesale: it produces one entry per active
job carrying that job's name (in order), and a job whose next-run query fails
is still listed, with the zero next-run value, rather than omitted. -/
theorem C6_getAllTasks_total (e : Engine) :
    (getAllTasks e).map AllTasksResponse.name = e.jobs.map Job.name ∧
    ∀ j ∈ e.jobs, j.nextRun = none →
      ({ name := j.name, nextRun := 0 } : AllTasksResponse) ∈ getAllTasks e := by
  refine ⟨getAllTasks_names e, ?_⟩
  intro j hj hnr
  rw [getAllTasks]
  exact List.mem_map.mpr ⟨j, hj, by simp [hnr]⟩

/-- An engine holding a job whose next-run query fails. -/
def failingNextRunEngine : Engine :=
  { jobs := [{ id := 0, name := "Cleanup Images", interval := 24 * hour,
               fn := some TaskFunc.cleanupImagesJob, nextRun := none }],
    nextId := 1, started := true }

theorem C6_witness :
    ({ name := "Cleanup Images", nextRun := 0 } : AllTasksResponse) ∈
      getAllTasks failingNextRunEngine :=
  (C6_getAllTasks_total failingNextRunEngine).2
    { id := 0, name := "Cleanup Images", interval := 24 * hour,
      fn := some TaskFunc.cleanupImagesJob, nextRun := none }
    (by decide) rfl

/-- C7: when construction of the execution engine fails, setup logs the fatal
startup error and stops: no scheduler state is produced, so no job is
registered and the execution loop is not started. -/
theorem C7_engine_construction_failure (cfg : String → Int) (failSet : String → Bool) :
    (setupTasks cfg true failSet).2 = none ∧
    "SetupTasks: Failed to create new scheduler!" ∈ (setupTasks cfg true failSet).1 := by
  constructor <;> simp [setupTasks]

theorem C7_witness :
    (setupTasks (fun _ => 0) true (fun _ => false)).2 = none ∧
    "SetupTasks: Failed to create new scheduler!" ∈
      (setupTasks (fun _ => 0) true (fun _ => false)).1 :=
  C7_engine_construction_failure (fun _ => 0) (fun _ => false)

/-- C8: `getTask` performs a linear scan comparing display names and returns
the first matching job (every job before it in the scan has a different
name), or `none` when no job matches; and two lookups with no intervening
mutation return the same result. -/
theorem C8_getTask_first_and_stable (e : Engine) (name : String) :
    (∀ j, getTask e name = some j → j.name = name ∧
       ∃ l₁ l₂, e.jobs = l₁ ++ j :: l₂ ∧ ∀ k ∈ l₁, k.name ≠ name) ∧
    (getTask e name = none → ∀ j ∈ e.jobs, j.name ≠ name) ∧
    getTask e name = getTask e name := by
  refine ⟨?_, ?_, rfl⟩
  · intro j hj
    obtain ⟨hp, l₁, l₂, hsplit, hfirst⟩ := find?_first_split _ _ _ hj
    refine ⟨by simpa using hp, l₁, l₂, hsplit, ?_⟩
    intro k hk
    simpa using hfirst k hk
  · intro h j hj
    have := List.find?_eq_none.mp h j hj
    simpa using this

theorem C8_witness :
    sampleJob.name = "Cleanup Tokens" ∧
    ∃ l₁ l₂, sampleState.engine.jobs = l₁ ++ sampleJob :: l₂ ∧
      ∀ k ∈ l₁, k.name ≠ "Cleanup Tokens" :=
  (C8_getTask_first_and_stable sampleState.engine "Cleanup Tokens").1 sampleJob (by decide)

theorem Engine.start_jobs (e : Engine) : e.start.jobs = e.jobs := rfl

theorem setupAdd_mem_new (cfg : String → Int) (failSet : String → Bool)
    (funcs : List (String × TaskFunc)) (acc : List String × Engine)
    (name : String) (d : Int) (hf : failSet name = false) :
    ∃ j ∈ (setupAdd cfg failSet funcs acc name d).2.jobs, j.name = name ∧
      j.interval = if cfg name ≠ 0 then wrap64 (cfg name * second) else d := by
  rw [setupAdd_registers cfg failSet funcs acc name d hf]
  exact ⟨_, List.mem_append_right _ (List.mem_singleton.mpr rfl), rfl, rfl⟩

/-- C4 (amended): for every task registered during a fully successful setup,
the effective interval is the wrapping-int64 product
`Config.TASK_SCHEDULE[name] * 10^9` nanoseconds — exactly the override in
seconds whenever that product fits in int64 — when the override is present
and non-zero, and the supplied built-in default (60s, 60s, 24h respectively)
when the override is absent or zero. -/
theorem C4_effective_intervals (cfg : String → Int) (st : SchedulerState)
    (h : (setupTasks cfg false (fun _ => false)).2 = some st) :
    (∃ j ∈ st.engine.jobs, j.name = "Cleanup Tokens" ∧
       j.interval = if cfg "Cleanup Tokens" ≠ 0 then wrap64 (cfg "Cleanup Tokens" * second)
                    else 60 * second) ∧
    (∃ j ∈ st.engine.jobs, j.name = "Refresh Arr Queues" ∧
       j.interval = if cfg "Refresh Arr Queues" ≠ 0 then wrap64 (cfg "Refresh Arr Queues" * second)
                    else 60 * second) ∧
    (∃ j ∈ st.engine.jobs, j.name = "Cleanup Images" ∧
       j.interval = if cfg "Cleanup Images" ≠ 0 then wrap64 (cfg "Cleanup Images" * second)
                    else 24 * hour) := by
  simp only [setupTasks, Bool.false_eq_true, if_false, Option.some.injEq] at h
  subst h
  simp only [Engine.start_jobs]
  refine ⟨?_, ?_, ?_⟩
  · obtain ⟨j, hj, hn, hi⟩ := setupAdd_mem_new cfg (fun _ => false) taskFuncsInit
      ([], Engine.empty) "Cleanup Tokens" (60 * second) rfl
    exact ⟨j, setupAdd_mono _ _ _ _ _ _ j (setupAdd_mono _ _ _ _ _ _ j hj), hn, hi⟩
  · obtain ⟨j, hj, hn, hi⟩ := setupAdd_mem_new cfg (fun _ => false) taskFuncsInit
      _ "Refresh Arr Queues" (60 * second) rfl
    exact ⟨j, setupAdd_mono _ _ _ _ _ _ j hj, hn, hi⟩
  · exact setupAdd_mem_new cfg (fun _ => false) taskFuncsInit _ "Cleanup Images" (24 * hour) rfl

/-- A config override: run "Cleanup Tokens" every 5 seconds. -/
def cfg5 : String → Int :=
  fun n => if n == "Cleanup Tokens" then 5 else 0

/-- The state produced by `setupTasks` under `cfg5` with no failures. -/
def setupState5 : SchedulerState :=
  { engine :=
      { jobs :=
          [{ id := 0, name := "Cleanup Tokens", interval := 5 * second,
             fn := some TaskFunc.cleanupTokensJob, nextRun := some (5 * second) },
           { id := 1, name := "Refresh Arr Queues", interval := 60 * second,
             fn := some TaskFunc.refreshArrQueuesJob, nextRun := some (60 * second) },
           { id := 2, name := "Cleanup Images", interval := 24 * hour,
             fn := some TaskFunc.cleanupImagesJob, nextRun := some (24 * hour) }],
        nextId := 3, started := true },
    taskFuncs := taskFuncsInit }

theorem C4_witness :
    (∃ j ∈ setupState5.engine.jobs, j.name = "Cleanup Tokens" ∧
       j.interval = if cfg5 "Cleanup Tokens" ≠ 0 then wrap64 (cfg5 "Cleanup Tokens" * second)
                    else 60 * second) ∧
    (∃ j ∈ setupState5.engine.jobs, j.name = "Refresh Arr Queues" ∧
       j.interval = if cfg5 "Refresh Arr Queues" ≠ 0 then wrap64 (cfg5 "Refresh Arr Queues" * second)
                    else 60 * second) ∧
    (∃ j ∈ setupState5.engine.jobs, j.name = "Cleanup Images" ∧
       j.interval = if cfg5 "Cleanup Images" ≠ 0 then wrap64 (cfg5 "Cleanup Images" * second)
                    else 24 * hour) :=
  C4_effective_intervals cfg5 setupState5 (by decide)

/-- C5: registration failures during setup are isolated: when engine
construction succeeds, every task whose registration the engine does not
reject still appears in `getAllTasks` of the resulting state, and the
engine's background loop is started after all registrations are attempted. -/
theorem C5_partial_failure (cfg : String → Int) (failSet : String → Bool)
    (st : SchedulerState) (h : (setupTasks cfg false failSet).2 = some st)
    (name : String) (hmem : name ∈ taskNames) (hok : failSet name = false) :
    name ∈ (getAllTasks st.engine).map AllTasksResponse.name ∧
    st.engine.started = true := by
  simp only [setupTasks, Bool.false_eq_true, if_false, Option.some.injEq] at h
  subst h
  constructor
  · rw [getAllTasks_names]
    simp only [Engine.start_jobs]
    simp only [taskNames, List.mem_cons, List.not_mem_nil, or_false] at hmem
    rcases hmem with rfl | rfl | rfl
    · obtain ⟨j, hj, hn, _⟩ := setupAdd_mem_new cfg failSet taskFuncsInit
        ([], Engine.empty) "Cleanup Tokens" (60 * second) hok
      exact List.mem_map.mpr
        ⟨j, setupAdd_mono _ _ _ _ _ _ j (setupAdd_mono _ _ _ _ _ _ j hj), hn⟩
    · obtain ⟨j, hj, hn, _⟩ := setupAdd_mem_new cfg failSet taskFuncsInit
        _ "Refresh Arr Queues" (60 * second) hok
      exact List.mem_map.mpr ⟨j, setupAdd_mono _ _ _ _ _ _ j hj, hn⟩
    · obtain ⟨j, hj, hn, _⟩ := setupAdd_mem_new cfg failSet taskFuncsInit
        _ "Cleanup Images" (24 * hour) hok
      exact List.mem_map.mpr ⟨j, hj, hn⟩
  · rfl

/-- The failure set rejecting only the "Refresh Arr Queues" registration. -/
def failSetRQ : String → Bool :=
  fun n => n == "Refresh Arr Queues"

/-- The state produced by `setupTasks` when only the "Refresh Arr Queues"
registration is rejected: the other two tasks are still registered. -/
def partialState : SchedulerState :=
  { engine :=
      { jobs :=
          [{ id := 0, name := "Cleanup Tokens", interval := 60 * second,
             fn := some TaskFunc.cleanupTokensJob, nextRun := some (60 * second) },
           { id := 1, name := "Cleanup Images", interval := 24 * hour,
             fn := some TaskFunc.cleanupImagesJob, nextRun := some (24 * hour) }],
        nextId := 2, started := true },
    taskFuncs := taskFuncsInit }

theorem C5_witness :
    "Cleanup Tokens" ∈ (getAllTasks partialState.engine).map AllTasksResponse.name ∧
    partialState.engine.started = true :=
  C5_partial_failure (fun _ => 0) failSetRQ partialState (by decide)
    "Cleanup Tokens" (by decide) (by decide)

/-- C9 (amended): `rescheduleTask` performs no validation of the requested
interval: whenever an active job carries `name`, the replacement registration
is submitted with a duration equal to the wrapping-int64 product
`req.seconds * 10^9` nanoseconds — exactly `req.seconds` seconds whenever
that product fits in int64, zero and negative values included — and the call
succeeds; an error is returned only when the engine rejects the replacement,
never because of the seconds value. -/
theorem C9_no_seconds_validation (st : SchedulerState) (name : String)
    (req : TaskRescheduleRequest) (j : Job)
    (hfind : getTask st.engine name = some j) :
    (rescheduleTask false st name req).1 = Except.ok () ∧
    (∃ k ∈ (rescheduleTask false st name req).2.engine.jobs,
       k.name = name ∧ k.interval = wrap64 (req.seconds * second)) ∧
    (∀ f msg, (rescheduleTask f st name req).1 = Except.error msg → f = true) := by
  obtain ⟨hjmem, hjname⟩ := getTask_mem hfind
  obtain ⟨e', he'⟩ := @update_err st.engine false j.id (wrap64 (req.seconds * second))
    (lookupFunc st.taskFuncs name) name j hjmem rfl rfl
  obtain ⟨hjobs, _, _⟩ := update_ok he'
  have hres : rescheduleTask false st name req = (Except.ok (), { st with engine := e' }) := by
    simp [rescheduleTask, hfind, he']
  refine ⟨by rw [hres], ?_, ?_⟩
  · rw [hres]
    refine ⟨{ id := st.engine.nextId, name := name, interval := wrap64 (req.seconds * second),
              fn := lookupFunc st.taskFuncs name,
              nextRun := some (wrap64 (req.seconds * second)) }, ?_, rfl, rfl⟩
    simp only
    rw [hjobs]
    exact List.mem_append_right _ (List.mem_singleton.mpr rfl)
  · intro f msg herr
    cases f with
    | false =>
      rw [hres] at herr
      simp at herr
    | true => rfl

theorem C9_witness :
    (rescheduleTask false sampleState "Cleanup Tokens" { seconds := -5 }).1 = Except.ok () ∧
    (∃ k ∈ (rescheduleTask false sampleState "Cleanup Tokens" { seconds := -5 }).2.engine.jobs,
       k.name = "Cleanup Tokens" ∧ k.interval = (-5 : Int) * second) ∧
    (∀ f msg, (rescheduleTask f sampleState "Cleanup Tokens" { seconds := -5 }).1 =
       Except.error msg → f = true) :=
  C9_no_seconds_validation sampleState "Cleanup Tokens" { seconds := -5 } sampleJob (by decide)

theorem rescheduleTask_taskFuncs (f : Bool) (st : SchedulerState) (name : String)
    (req : TaskRescheduleRequest) :
    (rescheduleTask f st name req).2.taskFuncs = st.taskFuncs := by
  cases hg : getTask st.engine name with
  | none => simp [rescheduleTask, hg]
  | some j =>
    cases hu : st.engine.update f j.id (wrap64 (req.seconds * second))
        (lookupFunc st.taskFuncs name) name with
    | error s => simp [rescheduleTask, hg, hu]
    | ok e' => simp [rescheduleTask, hg, hu]

theorem runReschedules_taskFuncs (ops : List (Bool × String × Int))
    (st : SchedulerState) :
    (runReschedules st ops).taskFuncs = st.taskFuncs := by
  induction ops generalizing st with
  | nil => rfl
  | cons op rest ih =>
    have hstep : runReschedules st (op :: rest) =
        runReschedules (rescheduleTask op.1 st op.2.1 { seconds := op.2.2 }).2 rest := rfl
    rw [hstep, ih, rescheduleTask_taskFuncs]

/-- C10: after setup the task-function table is never mutated — any sequence
of reschedule calls leaves it exactly as built — and a reschedule affects no
job other than the one carrying the given name: every job with a different
name is present before the call iff it is present after it. -/
theorem C10_frame (st : SchedulerState) (ops : List (Bool × String × Int))
    (f : Bool) (name : String) (req : TaskRescheduleRequest)
    (hids : (st.engine.jobs.map Job.id).Nodup) :
    (runReschedules st ops).taskFuncs = st.taskFuncs ∧
    (∀ k ∈ st.engine.jobs, k.name ≠ name →
       k ∈ (rescheduleTask f st name req).2.engine.jobs) ∧
    (∀ k ∈ (rescheduleTask f st name req).2.engine.jobs, k.name ≠ name →
       k ∈ st.engine.jobs) := by
  cases hg : getTask st.engine name with
  | none =>
    refine ⟨runReschedules_taskFuncs ops st, ?_, ?_⟩
    · intro k hk _
      simp only [rescheduleTask, hg]
      exact hk
    · intro k hk _
      simp only [rescheduleTask, hg] at hk
      exact hk
  | some j =>
    obtain ⟨hjmem, hjname⟩ := getTask_mem hg
    cases hu : st.engine.update f j.id (wrap64 (req.seconds * second))
        (lookupFunc st.taskFuncs name) name with
    | error s =>
      refine ⟨runReschedules_taskFuncs ops st, ?_, ?_⟩
      · intro k hk _
        simp only [rescheduleTask, hg, hu]
        exact hk
      · intro k hk _
        simp only [rescheduleTask, hg, hu] at hk
        exact hk
    | ok e' =>
      obtain ⟨hjobs, _, _⟩ := update_ok hu
      have he : (rescheduleTask f st name req).2.engine = e' := by
        simp [rescheduleTask, hg, hu]
      refine ⟨runReschedules_taskFuncs ops st, ?_, ?_⟩
      · intro k hk hkname
        rw [he, hjobs]
        apply List.mem_append_left
        rw [List.mem_filter]
        refine ⟨hk, ?_⟩
        simp only [bne_iff_ne, ne_eq]
        intro hid
        have hkj : k = j := List.inj_on_of_nodup_map hids hk hjmem hid
        exact hkname (hkj ▸ hjname)
      · intro k hk hkname
        rw [he, hjobs] at hk
        rcases List.mem_append.mp hk with hk | hk
        · exact (List.mem_filter.mp hk).1
        · rw [List.mem_singleton] at hk
          exact absurd (by rw [hk]) hkname

theorem C10_witness :
    ({ id := 1, name := "Refresh Arr Queues", interval := 60 * second,
       fn := some TaskFunc.refreshArrQueuesJob,
       nextRun := some (60 * second) } : Job) ∈
      (rescheduleTask false setupState "Cleanup Tokens"
        { seconds := 30 }).2.engine.jobs :=
  (C10_frame setupState [] false "Cleanup Tokens" { seconds := 30 }
      (by decide)).2.1
    { id := 1, name := "Refresh Arr Queues", interval := 60 * second,
      fn := some TaskFunc.refreshArrQueuesJob, nextRun := some (60 * second) }
    (by decide) (by decide)

/-- Refutes C1 as stated: requesting `seconds = 10^10` does not submit a
duration of 10^10 seconds — the int64 product wraps to −8446744073709551616
nanoseconds (about −267.8 years), which is the interval the replacement job
actually carries. -/
theorem C1_counterexample :
    (rescheduleTask false sampleState "Cleanup Tokens"
      { seconds := 10000000000 }).1 = Except.ok () ∧
    ¬ (∃ k ∈ (rescheduleTask false sampleState "Cleanup Tokens"
          { seconds := 10000000000 }).2.engine.jobs,
        k.interval = 10000000000 * second) ∧
    ∃ k ∈ (rescheduleTask false sampleState "Cleanup Tokens"
        { seconds := 10000000000 }).2.engine.jobs,
      k.name = "Cleanup Tokens" ∧ k.interval = -8446744073709551616 := by
  refine ⟨rfl, ?_, ?_⟩ <;> decide

/-- A config override of 10^10 seconds for "Cleanup Tokens": a valid Go int
whose nanosecond product overflows int64. -/
def cfgBig : String → Int :=
  fun n => if n == "Cleanup Tokens" then 10000000000 else 0

/-- The state produced by `setupTasks` under `cfgBig` with no failures: the
"Cleanup Tokens" interval is the wrapped int64 product, not 10^10 seconds. -/
def setupStateBig : SchedulerState :=
  { engine :=
      { jobs :=
          [{ id := 0, name := "Cleanup Tokens", interval := -8446744073709551616,
             fn := some TaskFunc.cleanupTokensJob,
             nextRun := some (-8446744073709551616) },
           { id := 1, name := "Refresh Arr Queues", interval := 60 * second,
             fn := some TaskFunc.refreshArrQueuesJob, nextRun := some (60 * second) },
           { id := 2, name := "Cleanup Images", interval := 24 * hour,
             fn := some TaskFunc.cleanupImagesJob, nextRun := some (24 * hour) }],
        nextId := 3, started := true },
    taskFuncs := taskFuncsInit }

/-- Refutes C4 as stated: with an override of 10^10 seconds, the registered
"Cleanup Tokens" job does not run every 10^10 seconds — its interval is the
wrapped int64 product −8446744073709551616 nanoseconds. -/
theorem C4_counterexample :
    (setupTasks cfgBig false (fun _ => false)).2 = some setupStateBig ∧
    ¬ (∃ j ∈ setupStateBig.engine.jobs, j.name = "Cleanup Tokens" ∧
        j.interval = 10000000000 * second) ∧
    ∃ j ∈ setupStateBig.engine.jobs, j.name = "Cleanup Tokens" ∧
      j.interval = -8446744073709551616 := by
  decide

/-- Refutes C9 as stated: at `seconds = −10^10` the replacement is not
submitted with a duration of −10^10 seconds — the int64 product wraps to
+8446744073709551616 nanoseconds (about +267.8 years). -/
theorem C9_counterexample :
    (rescheduleTask false sampleState "Cleanup Tokens"
      { seconds := -10000000000 }).1 = Except.ok () ∧
    ¬ (∃ k ∈ (rescheduleTask false sampleState "Cleanup Tokens"
          { seconds := -10000000000 }).2.engine.jobs,
        k.interval = -10000000000 * second) ∧
    ∃ k ∈ (rescheduleTask false sampleState "Cleanup Tokens"
        { seconds := -10000000000 }).2.engine.jobs,
      k.name = "Cleanup Tokens" ∧ k.interval = 8446744073709551616 := by
  refine ⟨rfl, ?_, ?_⟩ <;> decide
